import Mathlib

/-!
Verification of the client-side API-orchestration core of this repository
(`src/lib/apis/index.ts`): model-catalog aggregation (`getModels`), the six
task-completion operations (`generateTitle`, `generateFollowUps`,
`generateTags`, `generateEmoji`, `generateQueries`, `generateAutoCompletion`),
and OpenAPI tool invocation (`getToolServerData` headers, `executeToolServer`).

The TypeScript is embedded shallowly: network effects become explicit oracle
parameters, JavaScript objects become association lists, `JSON.parse` is
modelled by a strict executable parser `jsonParse` over the integer-numeral
fragment of JSON (sufficient for every decoded shape these operations touch),
and JavaScript truthiness is modelled by `Json.truthy`.
-/

/-- The left brace character, written numerically. -/
def lbrace : Char := Char.ofNat 123

/-- The right brace character, written numerically. -/
def rbrace : Char := Char.ofNat 125

/-- JSON values as produced by `JSON.parse`. Numbers are modelled as integers:
every numeric literal occurring in the decoded task payloads is integral. -/
inductive Json where
  | null : Json
  | bool (b : Bool) : Json
  | num (n : Int) : Json
  | str (s : String) : Json
  | arr (elems : List Json) : Json
  | obj (fields : List (String × Json)) : Json

/-- JavaScript truthiness of a JSON value (`if (v)`): `null`, `false`, `0` and
the empty string are falsy; every object and array is truthy. -/
def Json.truthy : Json → Bool
  | Json.null => false
  | Json.bool b => b
  | Json.num n => if n = 0 then false else true
  | Json.str s => if s = "" then false else true
  | Json.arr _ => true
  | Json.obj _ => true

/-- Property access `v.key` on a parsed JSON value: defined on objects,
`undefined` (here `none`) otherwise. -/
def Json.getField : Json → String → Option Json
  | Json.obj fields, key => fields.lookup key
  | _, _ => none

/-- Truthiness of a possibly-`undefined` JavaScript value (`if (v.key)`). -/
def jsTruthy : Option Json → Bool
  | none => false
  | some j => j.truthy

/-- Whether a JSON value is an array (`Array.isArray`). -/
def Json.isArr : Json → Bool
  | Json.arr _ => true
  | _ => false

/-- Insertion into a JavaScript-object association list: an existing key keeps
its position and gets the new value, a fresh key is appended. -/
def objUpsert {α : Type} (fields : List (String × α)) (k : String) (v : α) : List (String × α) :=
  if fields.any (fun kv => kv.1 == k) then
    fields.map (fun kv => if kv.1 == k then (k, v) else kv)
  else fields ++ [(k, v)]

/-- Skip JSON whitespace. -/
def skipWs : List Char → List Char
  | [] => []
  | c :: rest => if c = ' ' ∨ c = '\t' ∨ c = '\n' ∨ c = '\r' then skipWs rest else c :: rest

/-- Hexadecimal digit value of a character, if any. -/
def hexVal (c : Char) : Option Nat :=
  if c.isDigit then some (c.toNat - 48)
  else if 65 ≤ c.toNat ∧ c.toNat ≤ 70 then some (c.toNat - 55)
  else if 97 ≤ c.toNat ∧ c.toNat ≤ 102 then some (c.toNat - 87)
  else none

/-- Parse the body of a JSON string literal (after the opening quote),
handling the standard escapes; returns the decoded string and the rest. -/
def parseStringAux : List Char → List Char → Option (String × List Char)
  | [], _ => none
  | c :: rest, acc =>
    if c = '"' then some (String.mk acc.reverse, rest)
    else if c = '\\' then
      match rest with
      | [] => none
      | e :: rest2 =>
        if e = '"' then parseStringAux rest2 ('"' :: acc)
        else if e = '\\' then parseStringAux rest2 ('\\' :: acc)
        else if e = '/' then parseStringAux rest2 ('/' :: acc)
        else if e = 'n' then parseStringAux rest2 ('\n' :: acc)
        else if e = 't' then parseStringAux rest2 ('\t' :: acc)
        else if e = 'r' then parseStringAux rest2 ('\r' :: acc)
        else if e = 'b' then parseStringAux rest2 (Char.ofNat 8 :: acc)
        else if e = 'f' then parseStringAux rest2 (Char.ofNat 12 :: acc)
        else if e = 'u' then
          match rest2 with
          | h1 :: h2 :: h3 :: h4 :: rest3 =>
            match hexVal h1, hexVal h2, hexVal h3, hexVal h4 with
            | some a, some b, some c2, some d =>
              parseStringAux rest3 (Char.ofNat (((a * 16 + b) * 16 + c2) * 16 + d) :: acc)
            | _, _, _, _ => none
          | _ => none
        else none
    else parseStringAux rest (c :: acc)

/-- Numeric value of a list of decimal digits. -/
def digitsToNat (ds : List Char) : Nat :=
  ds.foldl (fun n c => n * 10 + (c.toNat - 48)) 0

/-- Parse an integer JSON numeral starting at the head of the input. -/
def parseNumberFrom (cs : List Char) : Option (Json × List Char) :=
  match cs with
  | [] => none
  | c :: rest =>
    if c = '-' then
      let p := rest.span Char.isDigit
      if p.1.isEmpty then none else some (Json.num (-(digitsToNat p.1 : Int)), p.2)
    else
      let p := cs.span Char.isDigit
      if p.1.isEmpty then none else some (Json.num ((digitsToNat p.1 : Int)), p.2)

/-- Parser mode: a whole value, the members of an object, or the elements of
an array (with the fields or elements accumulated so far). -/
inductive PMode where
  | value : PMode
  | members (acc : List (String × Json)) : PMode
  | elems (acc : List Json) : PMode

/-- Fueled strict JSON parser; the fuel strictly decreases at every recursive
call and `2 * length + 4` always suffices. -/
def parseRun (fuel : Nat) (mode : PMode) (cs : List Char) : Option (Json × List Char) :=
  match fuel with
  | 0 => none
  | fuel + 1 =>
    match mode with
    | PMode.value =>
      match skipWs cs with
      | [] => none
      | c :: rest =>
        if c = lbrace then
          match skipWs rest with
          | [] => none
          | c2 :: rest2 =>
            if c2 = rbrace then some (Json.obj [], rest2)
            else parseRun fuel (PMode.members []) (c2 :: rest2)
        else if c = '[' then
          match skipWs rest with
          | [] => none
          | c2 :: rest2 =>
            if c2 = ']' then some (Json.arr [], rest2)
            else parseRun fuel (PMode.elems []) (c2 :: rest2)
        else if c = '"' then
          match parseStringAux rest [] with
          | some p => some (Json.str p.1, p.2)
          | none => none
        else if c = 't' then
          match rest with
          | 'r' :: 'u' :: 'e' :: r => some (Json.bool true, r)
          | _ => none
        else if c = 'f' then
          match rest with
          | 'a' :: 'l' :: 's' :: 'e' :: r => some (Json.bool false, r)
          | _ => none
        else if c = 'n' then
          match rest with
          | 'u' :: 'l' :: 'l' :: r => some (Json.null, r)
          | _ => none
        else if c = '-' ∨ c.isDigit then parseNumberFrom (c :: rest)
        else none
    | PMode.members acc =>
      match skipWs cs with
      | [] => none
      | c :: rest =>
        if c = '"' then
          match parseStringAux rest [] with
          | none => none
          | some kp =>
            match skipWs kp.2 with
            | ':' :: rest3 =>
              match parseRun fuel PMode.value rest3 with
              | none => none
              | some vp =>
                match skipWs vp.2 with
                | [] => none
                | ',' :: rest5 => parseRun fuel (PMode.members (objUpsert acc kp.1 vp.1)) rest5
                | c5 :: rest5 =>
                  if c5 = rbrace then some (Json.obj (objUpsert acc kp.1 vp.1), rest5) else none
            | _ => none
        else none
    | PMode.elems acc =>
      match parseRun fuel PMode.value cs with
      | none => none
      | some vp =>
        match skipWs vp.2 with
        | ',' :: rest2 => parseRun fuel (PMode.elems (acc ++ [vp.1])) rest2
        | ']' :: rest2 => some (Json.arr (acc ++ [vp.1]), rest2)
        | _ => none

/-- `JSON.parse`: parse a complete JSON text (strict — trailing garbage other
than whitespace is an error), or `none` where `JSON.parse` throws. -/
def jsonParse (s : String) : Option Json :=
  match parseRun (2 * s.data.length + 4) PMode.value s.data with
  | some p => if (skipWs p.2).isEmpty then some p.1 else none
  | none => none

/-- First index of a character in a list of characters (`String.indexOf`),
or `none` where JavaScript returns `-1`. -/
def firstIndexOfChar : List Char → Char → Option Nat
  | [], _ => none
  | c :: rest, t => if c = t then some 0 else (firstIndexOfChar rest t).map (· + 1)

/-- Last index of a character (`String.lastIndexOf`), or `none` for `-1`. -/
def lastIndexOfChar (cs : List Char) (t : Char) : Option Nat :=
  (firstIndexOfChar cs.reverse t).map (fun k => cs.length - 1 - k)

/-- JavaScript `String.prototype.substring`: swaps its arguments when
`start > stop` and clamps both to the string length. -/
def jsSubstring (s : String) (a b : Nat) : String :=
  String.mk ((s.data.take (max a b)).drop (min a b))

/-- Normalization of one character: U+0027, U+2018, U+2019 and U+0060 become
a double quote, everything else is unchanged. -/
def sanitizeChar (c : Char) : Char :=
  if c.toNat = 39 ∨ c.toNat = 0x2018 ∨ c.toNat = 0x2019 ∨ c.toNat = 96 then '"' else c

/-- The quote normalization shared by the title, follow-ups and tags decoders
(the regex replace on lines 603, 667 and 731 of `src/lib/apis/index.ts`). -/
def sanitizeResponse (s : String) : String :=
  String.mk (s.data.map sanitizeChar)

/-- Decoder of `generateTitle` (lines 600–624): sanitize, carve the first-brace
to last-brace slice, parse it, and return `parsed.title` when truthy, else
`null` (`none`). -/
def generateTitleDecode (content : String) : Option Json :=
  let sanitizedResponse := sanitizeResponse content
  match firstIndexOfChar sanitizedResponse.data lbrace,
        lastIndexOfChar sanitizedResponse.data rbrace with
  | some jsonStartIndex, some jsonEndIndex =>
    match jsonParse (jsSubstring sanitizedResponse jsonStartIndex (jsonEndIndex + 1)) with
    | some parsed =>
      if parsed.truthy && jsTruthy (parsed.getField "title") then parsed.getField "title"
      else none
    | none => none
  | _, _ => none

/-- Decoder of `generateFollowUps` (lines 664–688): like the title decoder but
the expected key is `follow_ups`, non-arrays and all failures decode to `[]`. -/
def generateFollowUpsDecode (content : String) : List Json :=
  let sanitizedResponse := sanitizeResponse content
  match firstIndexOfChar sanitizedResponse.data lbrace,
        lastIndexOfChar sanitizedResponse.data rbrace with
  | some jsonStartIndex, some jsonEndIndex =>
    match jsonParse (jsSubstring sanitizedResponse jsonStartIndex (jsonEndIndex + 1)) with
    | some parsed =>
      if parsed.truthy && jsTruthy (parsed.getField "follow_ups") then
        match parsed.getField "follow_ups" with
        | some (Json.arr xs) => xs
        | _ => []
      else []
    | none => []
  | _, _ => []

/-- Decoder of `generateTags` (lines 728–752): sanitize, extract, parse; the
`tags` key must be a truthy array, every failure decodes to `[]`. -/
def generateTagsDecode (content : String) : List Json :=
  let sanitizedResponse := sanitizeResponse content
  match firstIndexOfChar sanitizedResponse.data lbrace,
        lastIndexOfChar sanitizedResponse.data rbrace with
  | some jsonStartIndex, some jsonEndIndex =>
    match jsonParse (jsSubstring sanitizedResponse jsonStartIndex (jsonEndIndex + 1)) with
    | some parsed =>
      if parsed.truthy && jsTruthy (parsed.getField "tags") then
        match parsed.getField "tags" with
        | some (Json.arr xs) => xs
        | _ => []
      else []
    | none => []
  | _, _ => []

/-- Decoder of `generateQueries` (lines 842–865). Unlike the three decoders
above it performs no quote normalization; content with no brace pair, and
content whose brace slice fails to parse, decode to `[content]` verbatim. -/
def generateQueriesDecode (content : String) : List Json :=
  match firstIndexOfChar content.data lbrace, lastIndexOfChar content.data rbrace with
  | some jsonStartIndex, some jsonEndIndex =>
    match jsonParse (jsSubstring content jsonStartIndex (jsonEndIndex + 1)) with
    | some parsed =>
      if parsed.truthy && jsTruthy (parsed.getField "queries") then
        match parsed.getField "queries" with
        | some (Json.arr xs) => xs
        | _ => []
      else []
    | none => [Json.str content]
  | _, _ => [Json.str content]

/-- Decoder of `generateAutoCompletion` (lines 909–931). No quote
normalization; the expected key is `text`; a parsed object whose `text` is
missing or falsy decodes to the empty string, and content with no brace pair
or an unparsable slice decodes to the raw content. -/
def generateAutoCompletionDecode (content : String) : Json :=
  match firstIndexOfChar content.data lbrace, lastIndexOfChar content.data rbrace with
  | some jsonStartIndex, some jsonEndIndex =>
    match jsonParse (jsSubstring content jsonStartIndex (jsonEndIndex + 1)) with
    | some parsed =>
      match parsed.getField "text" with
      | some t => if parsed.truthy && t.truthy then t else Json.str ""
      | none => Json.str ""
    | none => Json.str content
  | _, _ => Json.str content

/-- Decoder of `generateEmoji` (lines 792–800): strip double and single quote
characters from the content, and when the result is non-empty and contains an
extended-pictographic character (the platform predicate is a parameter `pic`),
return the first such character; otherwise `null`. -/
def generateEmojiDecode (pic : Char → Bool) (res : Option String) : Option Char :=
  match res with
  | none => none
  | some content =>
    let response := String.mk (content.data.filter (fun c => c.toNat ≠ 34 ∧ c.toNat ≠ 39))
    if response = "" then none
    else
      match response.data.find? pic with
      | some c => some c
      | none => none

/-- Outcome of one task-completion POST, as observed by the `.then/.catch`
chain shared by the six task operations. A 2xx body is summarized by its
`choices[0].message.content` string; a non-2xx response whose error body
decoded as a JSON object is summarized by that object's fields (the only
error-body shape these call sites are written against: the `catch` applies
the `in` operator to it); `httpErrorBadJson` is a non-2xx response whose
body `res.json()` failed to decode; `networkError` is a rejected fetch. -/
inductive FetchOutcome where
  | success (content : String) : FetchOutcome
  | httpError (errBody : List (String × Json)) : FetchOutcome
  | httpErrorBadJson : FetchOutcome
  | networkError : FetchOutcome

/-- The fetch-and-catch phase shared verbatim by the six task operations
(e.g. lines 584–598): on a non-2xx response the thrown JSON error body is
caught, and only when it has a truthy `detail` field is that field re-thrown
(`if ('detail' in err) { error = err.detail; } ... if (error) throw error`);
every other failure leaves `error` unset and `res` null, so the operation
proceeds with `res = null`. `Except.error` is the re-thrown detail value,
`Except.ok (some c)` a 2xx content string, `Except.ok none` a null `res`. -/
def taskFetchResult (o : FetchOutcome) : Except Json (Option String) :=
  match o with
  | FetchOutcome.success content => Except.ok (some content)
  | FetchOutcome.httpError errBody =>
    match errBody.lookup "detail" with
    | some d => if d.truthy then Except.error d else Except.ok none
    | none => Except.ok none
  | FetchOutcome.httpErrorBadJson => Except.ok none
  | FetchOutcome.networkError => Except.ok none

/-- The content string `res?.choices[0]?.message?.content ?? ''`. -/
def contentOrEmpty (res : Option String) : String := res.getD ""

/-- `generateTitle` (lines 563–625) as a function of the fetch outcome. -/
def generateTitle (o : FetchOutcome) : Except Json (Option Json) :=
  match taskFetchResult o with
  | Except.error e => Except.error e
  | Except.ok res => Except.ok (generateTitleDecode (contentOrEmpty res))

/-- `generateFollowUps` (lines 627–689) as a function of the fetch outcome. -/
def generateFollowUps (o : FetchOutcome) : Except Json (List Json) :=
  match taskFetchResult o with
  | Except.error e => Except.error e
  | Except.ok res => Except.ok (generateFollowUpsDecode (contentOrEmpty res))

/-- `generateTags` (lines 691–753) as a function of the fetch outcome. -/
def generateTags (o : FetchOutcome) : Except Json (List Json) :=
  match taskFetchResult o with
  | Except.error e => Except.error e
  | Except.ok res => Except.ok (generateTagsDecode (contentOrEmpty res))

/-- `generateEmoji` (lines 755–801) as a function of the fetch outcome; `pic`
is the platform's extended-pictographic character predicate. -/
def generateEmoji (pic : Char → Bool) (o : FetchOutcome) : Except Json (Option Char) :=
  match taskFetchResult o with
  | Except.error e => Except.error e
  | Except.ok res => Except.ok (generateEmojiDecode pic res)

/-- `generateQueries` (lines 803–865) as a function of the fetch outcome. -/
def generateQueries (o : FetchOutcome) : Except Json (List Json) :=
  match taskFetchResult o with
  | Except.error e => Except.error e
  | Except.ok res => Except.ok (generateQueriesDecode (contentOrEmpty res))

/-- `generateAutoCompletion` (lines 867–932) as a function of the fetch
outcome. -/
def generateAutoCompletion (o : FetchOutcome) : Except Json Json :=
  match taskFetchResult o with
  | Except.error e => Except.error e
  | Except.ok res => Except.ok (generateAutoCompletionDecode (contentOrEmpty res))

/-- Request headers of `getModels` (lines 26–30): `authorization` is spread in
only when the token string is truthy (non-empty). -/
def getModelsHeaders (token : String) : List (String × String) :=
  [("Accept", "application/json"), ("Content-Type", "application/json")]
    ++ (if token ≠ "" then [("authorization", "Bearer " ++ token)] else [])

/-- Request headers of `getToolServerData` (lines 328–332): same conditional
spread as `getModels`. -/
def getToolServerDataHeaders (token : String) : List (String × String) :=
  [("Accept", "application/json"), ("Content-Type", "application/json")]
    ++ (if token ≠ "" then [("authorization", "Bearer " ++ token)] else [])

/-- Request headers of `executeToolServer` (lines 474–477): `Content-Type`
plus the conditionally spread `authorization`. -/
def executeToolServerHeaders (token : String) : List (String × String) :=
  [("Content-Type", "application/json")]
    ++ (if token ≠ "" then [("authorization", "Bearer " ++ token)] else [])

/-- Request headers shared by the six task-completion operations (lines
573–577, 637–641, 701–705, 765–769, 814–818, 880–884): `Authorization` is a
plain object literal entry, attached unconditionally. -/
def taskCompletionHeaders (token : String) : List (String × String) :=
  [("Accept", "application/json"), ("Content-Type", "application/json"),
   ("Authorization", "Bearer " ++ token)]

/-- One model descriptor of the catalog, restricted to the fields `getModels`
reads or writes; object spreads preserve the remaining fields unchanged. -/
structure Model where
  id : String
  name : Option String := none
  owned_by : Option String := none
  tags : Option (List String) := none
  urlIdx : Option Nat := none
  direct : Bool := false
deriving DecidableEq

/-- One entry of `OPENAI_API_CONFIGS`: `enable` defaults to `true` via `??`,
`model_ids` to `[]`; `prefix_id` is applied only when truthy (non-empty), and
`tags` whenever the key is present (a JavaScript array is always truthy). -/
structure ApiConfig where
  enable : Option Bool := none
  model_ids : List String := []
  prefix_id : Option String := none
  tags : Option (List String) := none
deriving DecidableEq

/-- Outcome of one connection's `getOpenAIModelsDirect` call: the model list
of a fulfilled response, or a rejection (which the code catches, substituting
an empty list). -/
inductive ConnFetch where
  | ok (data : List Model) : ConnFetch
  | failed : ConnFetch

/-- The request pushed for connection `i` in the first loop of `getModels`
(lines 57–113): `none` when `i` is not a key of `OPENAI_API_CONFIGS` (no
request, not even a placeholder); otherwise the synthesized allow-list, the
fetched (or failure-substituted empty) model list, or an empty list for a
disabled connection. -/
def connRequest (configs : List (Nat × ApiConfig)) (oracle : Nat → ConnFetch) (i : Nat) :
    Option (List Model) :=
  match configs.lookup i with
  | none => none
  | some apiConfig =>
    let enable := apiConfig.enable.getD true
    if enable then
      if apiConfig.model_ids.length > 0 then
        some (apiConfig.model_ids.map (fun modelId =>
          { id := modelId, name := some modelId, owned_by := some "openai", urlIdx := some i }))
      else
        match oracle i with
        | ConnFetch.ok data => some data
        | ConnFetch.failed => some []
    else some []

/-- The settled `responses` array of `getModels` (line 115): one entry per
connection index that has a config entry, in index order. -/
def connRequests (urls : List String) (configs : List (Nat × ApiConfig))
    (oracle : Nat → ConnFetch) : List (List Model) :=
  (List.range urls.length).filterMap (connRequest configs oracle)

/-- The per-response post-processing of `getModels` (lines 118–138) for the
response at position `idx`: stamp `urlIdx := idx` on every model, prepend
`prefix_id` to the id when the config's `prefix_id` is truthy, and overwrite
`tags` when the config has a `tags` entry. -/
def applyConfig (apiConfig : ApiConfig) (idx : Nat) (models : List Model) : List Model :=
  let models := models.map (fun m => { m with urlIdx := some idx })
  let models :=
    match apiConfig.prefix_id with
    | some prefixId =>
      if prefixId ≠ "" then models.map (fun m => { m with id := prefixId ++ "." ++ m.id })
      else models
    | none => models
  match apiConfig.tags with
  | some tags => models.map (fun m => { m with tags := some tags })
  | none => models

/-- The second loop of `getModels` (lines 117–139): each response is resolved
against `OPENAI_API_CONFIGS[idx]` where `idx` is its POSITION in the settled
responses array (`?? {}` when that position is not a config key), and the
processed lists are concatenated into `localModels`. -/
def applyAllConfigs (configs : List (Nat × ApiConfig)) : Nat → List (List Model) → List Model
  | _, [] => []
  | idx, response :: rest =>
    applyConfig ((configs.lookup idx).getD {}) idx response
      ++ applyAllConfigs configs (idx + 1) rest

/-- The full pre-merge catalog (lines 142–148): base models, then every local
model marked `direct` with `name` defaulted to its id. -/
def preMergeModels (baseModels : List Model) (urls : List String)
    (configs : List (Nat × ApiConfig)) (oracle : Nat → ConnFetch) : List Model :=
  baseModels ++ (applyAllConfigs configs 0 (connRequests urls configs oracle)).map
    (fun m => { m with name := some (m.name.getD m.id), direct := true })

/-- Insertion into the id-keyed `modelsMap` (lines 150–153): a later model
with an existing id overwrites in place, a fresh id is appended — JavaScript
object assignment followed by `Object.values` in insertion order. -/
def insertModel (acc : List Model) (m : Model) : List Model :=
  if acc.any (fun x => x.id == m.id) then
    acc.map (fun x => if x.id == m.id then m else x)
  else acc ++ [m]

/-- The id-keyed deduplication of `getModels` (lines 150–155). -/
def mergeById (models : List Model) : List Model :=
  models.foldl insertModel []

/-- `getModels` (lines 18–159) with `connections` present and `base = false`,
as a function of the fetched base catalog and the per-connection oracle. -/
def getModelsMerged (baseModels : List Model) (urls : List String)
    (configs : List (Nat × ApiConfig)) (oracle : Nat → ConnFetch) : List Model :=
  mergeById (preMergeModels baseModels urls configs oracle)

/-- One OpenAPI parameter declaration: its name and location (`param.in`,
`"path"` or `"query"`; other locations are ignored by the code). -/
structure ParamSpec where
  name : String
  paramIn : String
deriving DecidableEq

/-- The request-body declaration of an operation; `content` maps content types
to schemas, of which the code only tests presence. -/
structure RequestBodySpec where
  content : Option (List String) := none
deriving DecidableEq

/-- One OpenAPI operation object, restricted to what `executeToolServer`
reads. -/
structure Operation where
  operationId : Option String := none
  parameters : List ParamSpec := []
  requestBody : Option RequestBodySpec := none
deriving DecidableEq

/-- The `openapi.paths` object of a tool-server spec bundle: path template to
method-to-operation object. -/
structure ServerData where
  paths : List (String × List (String × Operation))

/-- Fueled literal global substring replacement over character lists; every
step consumes at least one character, so fuel equal to the input length
suffices. -/
def listReplaceFuel (fuel : Nat) (pat rep : List Char) (s : List Char) : List Char :=
  match fuel with
  | 0 => s
  | fuel + 1 =>
    match s with
    | [] => []
    | c :: rest =>
      if pat ≠ [] ∧ pat.isPrefixOf (c :: rest) then
        rep ++ listReplaceFuel fuel pat rep (List.drop pat.length (c :: rest))
      else c :: listReplaceFuel fuel pat rep rest

/-- Literal global substring replacement, modelling
`String.replace(new RegExp(pat, 'g'), rep)` for a pattern with no regex
metacharacters and a replacement with no dollar sign. -/
def listReplace (pat rep s : List Char) : List Char :=
  listReplaceFuel s.length pat rep s

/-- Literal global replacement on strings. -/
def strReplaceAll (s pat rep : String) : String :=
  String.mk (listReplace pat.data rep.data s.data)

/-- UTF-8 encoding of one character, as byte values. -/
def utf8Bytes (c : Char) : List Nat :=
  let n := c.toNat
  if n < 0x80 then [n]
  else if n < 0x800 then [0xC0 + n / 64, 0x80 + n % 64]
  else if n < 0x10000 then [0xE0 + n / 4096, 0x80 + (n / 64) % 64, 0x80 + n % 64]
  else [0xF0 + n / 262144, 0x80 + (n / 4096) % 64, 0x80 + (n / 64) % 64, 0x80 + n % 64]

/-- Upper-case hexadecimal digit character. -/
def hexDigitChar (n : Nat) : Char :=
  if n < 10 then Char.ofNat (48 + n) else Char.ofNat (55 + n)

/-- Percent-encoding of one byte. -/
def percentEncodeByte (b : Nat) : List Char :=
  ['%', hexDigitChar (b / 16), hexDigitChar (b % 16)]

/-- Characters `encodeURIComponent` leaves unescaped. -/
def isUriUnreserved (c : Char) : Bool :=
  c.isAlpha || c.isDigit || c = '-' || c = '_' || c = '.' || c = '!' ||
    c = '~' || c = '*' || c.toNat = 39 || c = '(' || c = ')'

/-- `encodeURIComponent`. -/
def encodeURIComponent (s : String) : String :=
  String.mk ((s.data.map (fun c =>
    if isUriUnreserved c then [c]
    else ((utf8Bytes c).map percentEncodeByte).flatten)).flatten)

/-- Characters `URLSearchParams` serialization leaves unescaped. -/
def isFormSafe (c : Char) : Bool :=
  c.isAlpha || c.isDigit || c = '*' || c = '-' || c = '.' || c = '_'

/-- `application/x-www-form-urlencoded` escaping of one component, as done by
`URLSearchParams.toString` (space becomes `+`). -/
def formEncode (s : String) : String :=
  String.mk ((s.data.map (fun c =>
    if isFormSafe c then [c]
    else if c = ' ' then ['+']
    else ((utf8Bytes c).map percentEncodeByte).flatten)).flatten)

/-- `new URLSearchParams(entries).toString()`. -/
def queryStringOf (qs : List (String × String)) : String :=
  String.intercalate "&" (qs.map (fun kv => formEncode kv.1 ++ "=" ++ formEncode kv.2))

/-- The partition of `params` into path and query parameters (lines 434–450):
only keys declared in `operation.parameters` and present in `params` are
transcribed, into JavaScript objects (duplicate declarations overwrite). -/
def partitionStep (params : List (String × String))
    (pq : List (String × String) × List (String × String)) (p : ParamSpec) :
    List (String × String) × List (String × String) :=
  match params.lookup p.name with
  | some v =>
    if p.paramIn == "path" then (objUpsert pq.1 p.name v, pq.2)
    else if p.paramIn == "query" then (pq.1, objUpsert pq.2 p.name v)
    else pq
  | none => pq

def paramsPartition (operation : Operation) (params : List (String × String)) :
    List (String × String) × List (String × String) :=
  operation.parameters.foldl (partitionStep params) ([], [])

/-- The URL constructed by `executeToolServer` (lines 452–463): base plus the
route template, each path parameter substituted by literal global `{name}`
replacement with its percent-encoded value, then the query string of the
query parameters appended when any exist. -/
def buildToolUrl (url routePath : String) (operation : Operation)
    (params : List (String × String)) : String :=
  let pq := paramsPartition operation params
  let withPath := pq.1.foldl
    (fun u kv => strReplaceAll u ("\x7b" ++ kv.1 ++ "\x7d") (encodeURIComponent kv.2))
    (url ++ routePath)
  if pq.2.isEmpty then withPath else withPath ++ "?" ++ queryStringOf pq.2

/-- The HTTP request assembled by `executeToolServer` before fetching. -/
structure ToolRequest where
  url : String
  method : String
  headers : List (String × String)
  body : Option (List (String × String))

/-- Assembly of the request (lines 452–486): the body is the ENTIRE `params`
mapping when the operation declares `requestBody.content`, and it is attached
only for `post`/`put`/`patch` methods whose operation has a `requestBody`. -/
def toolRequestOf (token url routePath httpMethod : String) (operation : Operation)
    (params : List (String × String)) : ToolRequest :=
  let hasBodyContent :=
    match operation.requestBody with
    | some rb => rb.content.isSome
    | none => false
  let bodyParams := if hasBodyContent then params else []
  { url := buildToolUrl url routePath operation params
    method := httpMethod.toUpper
    headers := executeToolServerHeaders token
    body :=
      if (httpMethod.toLower = "post" ∨ httpMethod.toLower = "put" ∨
            httpMethod.toLower = "patch") ∧ operation.requestBody.isSome
      then some bodyParams else none }

/-- Outcome of the tool-server fetch as observed inside the `try` block:
rejection of `fetch` itself, a non-2xx status with its body text, a 2xx body
that parsed as JSON, or a 2xx body whose `res.json()` rejected. Each carries
the `message` the thrown platform error would have. -/
inductive ToolFetchOutcome where
  | networkError (msg : String) : ToolFetchOutcome
  | httpError (status : Nat) (bodyText : String) : ToolFetchOutcome
  | okJson (body : Json) : ToolFetchOutcome
  | okBadJson (msg : String) : ToolFetchOutcome

/-- The value-typed result of `executeToolServer`: the parsed response body,
or the `{ error: message }` object the surrounding `catch` returns. -/
inductive ToolResult where
  | ok (v : Json) : ToolResult
  | err (message : String) : ToolResult

/-- The first path entry one of whose methods has the wanted `operationId`
(lines 414–416). -/
def findMatchingRoute (paths : List (String × List (String × Operation))) (name : String) :
    Option (String × List (String × Operation)) :=
  paths.find? (fun entry => entry.2.any (fun me => me.2.operationId == some name))

/-- `executeToolServer` (lines 404–500). The whole body runs inside
`try ... catch (err) { return { error: err.message }; }`, so every failure —
unknown operation name, rejected fetch, non-2xx status, undecodable success
body — becomes a returned `ToolResult.err` with that error's message; the
function is total and never propagates a fault. -/
def executeToolServer (token url name : String) (params : List (String × String))
    (serverData : ServerData) (oracle : ToolRequest → ToolFetchOutcome) : ToolResult :=
  match findMatchingRoute serverData.paths name with
  | none => ToolResult.err ("No matching route found for operationId: " ++ name)
  | some route =>
    match route.2.find? (fun me => me.2.operationId == some name) with
    | none => ToolResult.err ("No matching method found for operationId: " ++ name)
    | some methodEntry =>
      let req := toolRequestOf token url route.1 methodEntry.1 methodEntry.2 params
      match oracle req with
      | ToolFetchOutcome.networkError msg => ToolResult.err msg
      | ToolFetchOutcome.httpError status text =>
        ToolResult.err ("HTTP error! Status: " ++ toString status ++ ". Message: " ++ text)
      | ToolFetchOutcome.okBadJson msg => ToolResult.err msg
      | ToolFetchOutcome.okJson body => ToolResult.ok body

/-- A parsed value with a defined field is an object, hence truthy. -/
theorem Json.truthy_of_getField_some {j : Json} {k : String} {v : Json}
    (h : j.getField k = some v) : j.truthy = true := by
  cases j <;> simp [Json.getField, Json.truthy] at h ⊢

/-- Quote normalization is idempotent on characters. -/
theorem sanitizeChar_idem (c : Char) : sanitizeChar (sanitizeChar c) = sanitizeChar c := by
  by_cases h : c.toNat = 39 ∨ c.toNat = 0x2018 ∨ c.toNat = 0x2019 ∨ c.toNat = 96 <;>
    simp [sanitizeChar, h]

/-- Quote normalization is idempotent on strings. -/
theorem sanitizeResponse_idem (s : String) :
    sanitizeResponse (sanitizeResponse s) = sanitizeResponse s := by
  simp only [sanitizeResponse, List.map_map]
  exact congrArg String.mk (List.map_congr_left (fun c _ => sanitizeChar_idem c))

/-- C1 counterexample: `generateTitle` receives a non-2xx response whose JSON
error body has no `detail` field; the claim says the operation raises the raw
error body, but the code's catch block (lines 588–594) has no else branch, so
no error is recorded and the operation returns the per-task fallback `null`
(`Except.ok none`) instead of raising. -/
theorem generateTitle_nondetail_silently_falls_back :
    generateTitle (FetchOutcome.httpError [("message", Json.str "Internal Server Error")])
      = Except.ok none := rfl

/-- C1 (amended): on a non-2xx response each of the six task operations raises
the error body's `detail` value when that field is present and truthy; when
`detail` is absent or falsy — or the error body is not decodable JSON — the
operation does not raise and instead returns its per-task fallback (`null`,
`[]`, `[]`, `null`, `['']`, `''` respectively). -/
theorem taskCompletion_detail_raised_else_fallback :
    ∀ errBody : List (String × Json),
      (∀ d, errBody.lookup "detail" = some d → d.truthy = true → ∀ pic : Char → Bool,
        generateTitle (FetchOutcome.httpError errBody) = Except.error d ∧
        generateFollowUps (FetchOutcome.httpError errBody) = Except.error d ∧
        generateTags (FetchOutcome.httpError errBody) = Except.error d ∧
        generateEmoji pic (FetchOutcome.httpError errBody) = Except.error d ∧
        generateQueries (FetchOutcome.httpError errBody) = Except.error d ∧
        generateAutoCompletion (FetchOutcome.httpError errBody) = Except.error d) ∧
      ((∀ d, errBody.lookup "detail" = some d → d.truthy = false) → ∀ pic : Char → Bool,
        generateTitle (FetchOutcome.httpError errBody) = Except.ok none ∧
        generateFollowUps (FetchOutcome.httpError errBody) = Except.ok [] ∧
        generateTags (FetchOutcome.httpError errBody) = Except.ok [] ∧
        generateEmoji pic (FetchOutcome.httpError errBody) = Except.ok none ∧
        generateQueries (FetchOutcome.httpError errBody) = Except.ok [Json.str ""] ∧
        generateAutoCompletion (FetchOutcome.httpError errBody) = Except.ok (Json.str "")) ∧
      (∀ pic : Char → Bool,
        generateTitle FetchOutcome.httpErrorBadJson = Except.ok none ∧
        generateFollowUps FetchOutcome.httpErrorBadJson = Except.ok [] ∧
        generateTags FetchOutcome.httpErrorBadJson = Except.ok [] ∧
        generateEmoji pic FetchOutcome.httpErrorBadJson = Except.ok none ∧
        generateQueries FetchOutcome.httpErrorBadJson = Except.ok [Json.str ""] ∧
        generateAutoCompletion FetchOutcome.httpErrorBadJson = Except.ok (Json.str "")) := by
  intro errBody
  refine ⟨?_, ?_, ?_⟩
  · intro d hd ht pic
    refine ⟨?_, ?_, ?_, ?_, ?_, ?_⟩ <;>
      simp [generateTitle, generateFollowUps, generateTags, generateEmoji, generateQueries,
        generateAutoCompletion, taskFetchResult, hd, ht]
  · intro hfalsy pic
    cases hd : errBody.lookup "detail" with
    | none =>
      refine ⟨?_, ?_, ?_, ?_, ?_, ?_⟩ <;>
        simp only [generateTitle, generateFollowUps, generateTags, generateEmoji,
          generateQueries, generateAutoCompletion, taskFetchResult, hd] <;> rfl
    | some d =>
      have ht := hfalsy d hd
      refine ⟨?_, ?_, ?_, ?_, ?_, ?_⟩ <;>
        simp only [generateTitle, generateFollowUps, generateTags, generateEmoji,
          generateQueries, generateAutoCompletion, taskFetchResult, hd, ht,
          Bool.false_eq_true, if_false] <;> rfl
  · intro pic
    exact ⟨rfl, rfl, rfl, rfl, rfl, rfl⟩

/-- Witness for the C1 amended theorem at two concrete error bodies: a body
with a truthy `detail` raises it, and a body without `detail` yields the
title fallback. -/
theorem taskCompletion_detail_raised_else_fallback_witness :
    generateTitle (FetchOutcome.httpError [("detail", Json.str "boom")])
        = Except.error (Json.str "boom") ∧
      generateTags (FetchOutcome.httpError [("message", Json.str "oops")]) = Except.ok [] :=
  ⟨((taskCompletion_detail_raised_else_fallback [("detail", Json.str "boom")]).1
      (Json.str "boom") rfl rfl (fun _ => false)).1,
   (((taskCompletion_detail_raised_else_fallback [("message", Json.str "oops")]).2.1
      (fun d hd => by simp [List.lookup] at hd) (fun _ => false)).2.2.1)⟩

/-- C4 counterexample: with an empty token the six task-completion operations
still attach the header `Authorization: Bearer ` (lines 576, 640, 704, 768,
817, 883 build the header unconditionally), refuting the claim that an empty
token omits the header on every outbound call of the core. -/
theorem taskCompletion_empty_token_header_attached :
    taskCompletionHeaders ""
      = [("Accept", "application/json"), ("Content-Type", "application/json"),
         ("Authorization", "Bearer ")] ∧
    ("Authorization", "Bearer ") ∈ taskCompletionHeaders "" := by
  exact ⟨rfl, by decide⟩

/-- C4 (amended): `getModels`, `getToolServerData` and `executeToolServer`
omit the authorization header when the token is empty and attach
`authorization: Bearer <token>` when it is non-empty; the six task-completion
operations attach `Authorization: Bearer <token>` unconditionally, even for
the empty token. -/
theorem auth_header_policy :
    ∀ token : String,
      (token = "" →
        getModelsHeaders token
            = [("Accept", "application/json"), ("Content-Type", "application/json")] ∧
          getToolServerDataHeaders token
            = [("Accept", "application/json"), ("Content-Type", "application/json")] ∧
          executeToolServerHeaders token = [("Content-Type", "application/json")]) ∧
      (token ≠ "" →
        ("authorization", "Bearer " ++ token) ∈ getModelsHeaders token ∧
          ("authorization", "Bearer " ++ token) ∈ getToolServerDataHeaders token ∧
          ("authorization", "Bearer " ++ token) ∈ executeToolServerHeaders token) ∧
      ("Authorization", "Bearer " ++ token) ∈ taskCompletionHeaders token := by
  intro token
  refine ⟨?_, ?_, ?_⟩
  · intro h
    subst h
    exact ⟨rfl, rfl, rfl⟩
  · intro h
    refine ⟨?_, ?_, ?_⟩ <;>
      simp [getModelsHeaders, getToolServerDataHeaders, executeToolServerHeaders, h]
  · simp [taskCompletionHeaders]

/-- Witness for the C4 amended theorem at the empty token and at `"tok"`. -/
theorem auth_header_policy_witness :
    getModelsHeaders "" = [("Accept", "application/json"), ("Content-Type", "application/json")] ∧
      ("authorization", "Bearer tok") ∈ getModelsHeaders "tok" :=
  ⟨((auth_header_policy "").1 rfl).1, ((auth_header_policy "tok").2.1 (by decide)).1⟩

/-- The right single quotation mark U+2019, one of the characters the
sanitizing decoders normalize to a double quote. -/
def squote : Char := Char.ofNat 0x2019

/-- A completion text carrying a JSON object quoted with U+2019 smart quotes:
after normalization it is exactly the text between braces `"queries": []`. -/
def smartQuoteQueries : String :=
  String.mk [lbrace, squote, 'q', 'u', 'e', 'r', 'i', 'e', 's', squote, ':', ' ', '[', ']', rbrace]

/-- C5 counterexample: `generateQueries` (lines 842–851) reads the raw
completion content — there is no sanitizing replace before `indexOf`/
`lastIndexOf`/`JSON.parse`. On a smart-quoted object the raw parse fails and
the decoder returns `[content]`, whereas the claimed normalize-first pipeline
(applied here by pre-sanitizing) would return `[]`. -/
theorem generateQueries_decode_not_normalized :
    generateQueriesDecode smartQuoteQueries = [Json.str smartQuoteQueries] ∧
    generateQueriesDecode (sanitizeResponse smartQuoteQueries) = [] := ⟨rfl, rfl⟩

/-- C5 (amended): the title, follow-ups and tags decoders normalize the quote
variants U+0027, U+2019, U+2018-range and U+0060 to `"` before locating the
braces and parsing — each is invariant under pre-normalization of its input —
but `generateQueries` and `generateAutoCompletion` parse the raw content with
no normalization, as the auto-completion decoder shows on a smart-quoted
input. -/
theorem quote_normalization_policy :
    (∀ content : String,
      generateTitleDecode (sanitizeResponse content) = generateTitleDecode content ∧
        generateFollowUpsDecode (sanitizeResponse content) = generateFollowUpsDecode content ∧
        generateTagsDecode (sanitizeResponse content) = generateTagsDecode content) ∧
    generateAutoCompletionDecode smartQuoteQueries = Json.str smartQuoteQueries ∧
    generateAutoCompletionDecode (sanitizeResponse smartQuoteQueries) = Json.str "" := by
  refine ⟨?_, rfl, rfl⟩
  intro content
  refine ⟨?_, ?_, ?_⟩ <;>
    simp only [generateTitleDecode, generateFollowUpsDecode, generateTagsDecode,
      sanitizeResponse_idem]

/-- Quote normalization maps a character to a brace exactly when the character
already is that brace: the normalized set contains neither brace, and the
replacement `"` is not a brace. -/
theorem sanitizeChar_eq_brace_iff (c t : Char) (ht : t = lbrace ∨ t = rbrace) :
    sanitizeChar c = t ↔ c = t := by
  unfold sanitizeChar
  by_cases h : c.toNat = 39 ∨ c.toNat = 0x2018 ∨ c.toNat = 0x2019 ∨ c.toNat = 96
  · rw [if_pos h]
    constructor
    · intro hq
      exfalso
      rcases ht with ht | ht <;> rw [ht] at hq <;> exact absurd hq (by decide)
    · intro hc
      exfalso
      subst hc
      rcases ht with ht | ht <;> rw [ht] at h <;> exact absurd h (by decide)
  · rw [if_neg h]

/-- Locating the first brace commutes with quote normalization. -/
theorem firstIndexOfChar_sanitize (l : List Char) (t : Char) (ht : t = lbrace ∨ t = rbrace) :
    firstIndexOfChar (l.map sanitizeChar) t = firstIndexOfChar l t := by
  induction l with
  | nil => rfl
  | cons c rest ih =>
    simp only [List.map_cons, firstIndexOfChar, ih, sanitizeChar_eq_brace_iff c t ht]

/-- Locating the last brace commutes with quote normalization. -/
theorem lastIndexOfChar_sanitize (l : List Char) (t : Char) (ht : t = lbrace ∨ t = rbrace) :
    lastIndexOfChar (l.map sanitizeChar) t = lastIndexOfChar l t := by
  unfold lastIndexOfChar
  rw [← List.map_reverse, firstIndexOfChar_sanitize _ t ht, List.length_map]


/-- Truthiness of a defined property is the value's truthiness. -/
theorem jsTruthy_some (j : Json) : jsTruthy (some j) = j.truthy := rfl

/-- An array is always truthy. -/
theorem Json.truthy_arr (xs : List Json) : (Json.arr xs).truthy = true := rfl

/-- Brace location in a string commutes with quote normalization. -/
theorem firstIndexOfChar_sanitizeResponse (s : String) :
    firstIndexOfChar (sanitizeResponse s).data lbrace = firstIndexOfChar s.data lbrace :=
  firstIndexOfChar_sanitize s.data lbrace (Or.inl rfl)

/-- Last-brace location in a string commutes with quote normalization. -/
theorem lastIndexOfChar_sanitizeResponse (s : String) :
    lastIndexOfChar (sanitizeResponse s).data rbrace = lastIndexOfChar s.data rbrace :=
  lastIndexOfChar_sanitize s.data rbrace (Or.inr rfl)

/-- C7: the `generateQueries` decoder — content with no brace pair yields the
one-element list holding the original content verbatim; a brace slice that
parses to a value with no `queries` field yields `[]`; and a `queries` field
holding a list is returned as-is. -/
theorem generateQueries_decode_spec :
    ∀ content : String,
      ((firstIndexOfChar content.data lbrace = none ∨
          lastIndexOfChar content.data rbrace = none) →
        generateQueriesDecode content = [Json.str content]) ∧
      (∀ i j parsed,
        firstIndexOfChar content.data lbrace = some i →
        lastIndexOfChar content.data rbrace = some j →
        jsonParse (jsSubstring content i (j + 1)) = some parsed →
        (parsed.getField "queries" = none → generateQueriesDecode content = []) ∧
        (∀ xs, parsed.getField "queries" = some (Json.arr xs) →
          generateQueriesDecode content = xs)) := by
  intro content
  constructor
  · intro h
    unfold generateQueriesDecode
    rcases h with h | h
    · rw [h]
    · rw [h]
      cases firstIndexOfChar content.data lbrace <;> rfl
  · intro i j parsed hi hj hp
    constructor
    · intro hq
      simp only [generateQueriesDecode, hi, hj, hp, hq, jsTruthy, Bool.and_false]
      rfl
    · intro xs hq
      have htr := Json.truthy_of_getField_some hq
      simp only [generateQueriesDecode, hi, hj, hp, hq, jsTruthy_some, htr, Json.truthy_arr,
        Bool.and_self]
      rfl

/-- Witness for the C7 theorem at three concrete completion texts: prose with
no braces, an object without the `queries` key, and an object carrying a
query list. -/
theorem generateQueries_decode_spec_witness :
    generateQueriesDecode "no json here" = [Json.str "no json here"] ∧
      generateQueriesDecode "x \x7b\"a\": 1\x7d y" = [] ∧
      generateQueriesDecode "ok \x7b\"queries\": [\"q1\", \"q2\"]\x7d"
        = [Json.str "q1", Json.str "q2"] :=
  ⟨(generateQueries_decode_spec "no json here").1 (Or.inl rfl),
   ((generateQueries_decode_spec "x \x7b\"a\": 1\x7d y").2 2 9
      (Json.obj [("a", Json.num 1)]) rfl rfl rfl).1 rfl,
   ((generateQueries_decode_spec "ok \x7b\"queries\": [\"q1\", \"q2\"]\x7d").2 3 27
      (Json.obj [("queries", Json.arr [Json.str "q1", Json.str "q2"])]) rfl rfl rfl).2
     [Json.str "q1", Json.str "q2"] rfl⟩

/-- C8: the `generateTags` decoder — the spec's example `Sure! {"tags":
["a","b"]}` decodes to `["a","b"]`; content with no brace pair decodes to
`[]`; and a parsed slice whose `tags` field is missing or not an array also
decodes to `[]`. The brace search runs on the sanitized text, which contains
a brace exactly where the raw content does. -/
theorem generateTags_decode_spec :
    generateTagsDecode "Sure! \x7b\"tags\": [\"a\",\"b\"]\x7d"
        = [Json.str "a", Json.str "b"] ∧
    ∀ content : String,
      ((firstIndexOfChar content.data lbrace = none ∨
          lastIndexOfChar content.data rbrace = none) →
        generateTagsDecode content = []) ∧
      (∀ i j parsed,
        firstIndexOfChar content.data lbrace = some i →
        lastIndexOfChar content.data rbrace = some j →
        jsonParse (jsSubstring (sanitizeResponse content) i (j + 1)) = some parsed →
        (parsed.getField "tags" = none → generateTagsDecode content = []) ∧
        (∀ t, parsed.getField "tags" = some t → t.isArr = false →
          generateTagsDecode content = []) ∧
        (∀ xs, parsed.getField "tags" = some (Json.arr xs) →
          generateTagsDecode content = xs)) := by
  constructor
  · rfl
  intro content
  constructor
  · intro h
    simp only [generateTagsDecode, firstIndexOfChar_sanitizeResponse,
      lastIndexOfChar_sanitizeResponse]
    rcases h with h | h
    · rw [h]
    · rw [h]
      cases firstIndexOfChar content.data lbrace <;> rfl
  · intro i j parsed hi hj hp
    refine ⟨?_, ?_, ?_⟩
    · intro hq
      simp only [generateTagsDecode, firstIndexOfChar_sanitizeResponse,
        lastIndexOfChar_sanitizeResponse, hi, hj, hp, hq, jsTruthy, Bool.and_false]
      rfl
    · intro t hq ha
      simp only [generateTagsDecode, firstIndexOfChar_sanitizeResponse,
        lastIndexOfChar_sanitizeResponse, hi, hj, hp, hq, jsTruthy_some]
      cases t <;> simp [Json.isArr] at ha ⊢
    · intro xs hq
      have htr := Json.truthy_of_getField_some hq
      simp only [generateTagsDecode, firstIndexOfChar_sanitizeResponse,
        lastIndexOfChar_sanitizeResponse, hi, hj, hp, hq, jsTruthy_some, htr, Json.truthy_arr,
        Bool.and_self]
      rfl

/-- Witness for the C8 theorem at three concrete completion texts: prose with
no braces, an object without `tags`, and an object whose `tags` is not an
array. -/
theorem generateTags_decode_spec_witness :
    generateTagsDecode "just words" = [] ∧
      generateTagsDecode "x \x7b\"a\": 1\x7d y" = [] ∧
      generateTagsDecode "\x7b\"tags\": \"a\"\x7d" = [] :=
  ⟨((generateTags_decode_spec).2 "just words").1 (Or.inl rfl),
   (((generateTags_decode_spec).2 "x \x7b\"a\": 1\x7d y").2 2 9
      (Json.obj [("a", Json.num 1)]) rfl rfl rfl).1 rfl,
   ((((generateTags_decode_spec).2 "\x7b\"tags\": \"a\"\x7d").2 0 12
      (Json.obj [("tags", Json.str "a")]) rfl rfl rfl).2.1 (Json.str "a") rfl rfl)⟩

/-- C2: `executeToolServer` never propagates a fault — an operation name
matching no `operationId` in the document's paths yields the value-typed
`{error: "No matching route found for operationId: <name>"}`, and each of the
other failure classes (rejected fetch, non-2xx status, undecodable success
body) is likewise returned as a `{error: message}` value, while a decodable
2xx body is returned as the parsed result. -/
theorem executeToolServer_value_typed_errors :
    ∀ (token url name : String) (params : List (String × String)) (serverData : ServerData)
      (oracle : ToolRequest → ToolFetchOutcome),
      (findMatchingRoute serverData.paths name = none →
        executeToolServer token url name params serverData oracle
          = ToolResult.err ("No matching route found for operationId: " ++ name)) ∧
      (∀ routePath methods httpMethod operation,
        findMatchingRoute serverData.paths name = some (routePath, methods) →
        methods.find? (fun me => me.2.operationId == some name) = some (httpMethod, operation) →
        (∀ msg,
          oracle (toolRequestOf token url routePath httpMethod operation params)
              = ToolFetchOutcome.networkError msg →
          executeToolServer token url name params serverData oracle = ToolResult.err msg) ∧
        (∀ status text,
          oracle (toolRequestOf token url routePath httpMethod operation params)
              = ToolFetchOutcome.httpError status text →
          executeToolServer token url name params serverData oracle
            = ToolResult.err
                ("HTTP error! Status: " ++ toString status ++ ". Message: " ++ text)) ∧
        (∀ msg,
          oracle (toolRequestOf token url routePath httpMethod operation params)
              = ToolFetchOutcome.okBadJson msg →
          executeToolServer token url name params serverData oracle = ToolResult.err msg) ∧
        (∀ body,
          oracle (toolRequestOf token url routePath httpMethod operation params)
              = ToolFetchOutcome.okJson body →
          executeToolServer token url name params serverData oracle = ToolResult.ok body)) := by
  intro token url name params serverData oracle
  constructor
  · intro h
    simp only [executeToolServer, h]
  · intro routePath methods httpMethod operation hroute hfind
    refine ⟨?_, ?_, ?_, ?_⟩
    · intro msg hmsg
      simp only [executeToolServer, hroute, hfind, hmsg]
    · intro status text hst
      simp only [executeToolServer, hroute, hfind, hst]
    · intro msg hmsg
      simp only [executeToolServer, hroute, hfind, hmsg]
    · intro body hbody
      simp only [executeToolServer, hroute, hfind, hbody]

/-- Witness for the C2 theorem on a one-operation document: an unknown
operation name and a 500 response both come back as `ToolResult.err` values.
-/
theorem executeToolServer_value_typed_errors_witness :
    executeToolServer "tok" "http://s" "nope" []
        (ServerData.mk [("/ping", [("get", { operationId := some "ping" })])])
        (fun _ => ToolFetchOutcome.okJson Json.null)
      = ToolResult.err "No matching route found for operationId: nope" ∧
    executeToolServer "tok" "http://s" "ping" []
        (ServerData.mk [("/ping", [("get", { operationId := some "ping" })])])
        (fun _ => ToolFetchOutcome.httpError 500 "boom")
      = ToolResult.err "HTTP error! Status: 500. Message: boom" :=
  ⟨(executeToolServer_value_typed_errors "tok" "http://s" "nope" []
      (ServerData.mk [("/ping", [("get", { operationId := some "ping" })])])
      (fun _ => ToolFetchOutcome.okJson Json.null)).1 rfl,
   (((executeToolServer_value_typed_errors "tok" "http://s" "ping" []
      (ServerData.mk [("/ping", [("get", { operationId := some "ping" })])])
      (fun _ => ToolFetchOutcome.httpError 500 "boom")).2
      "/ping" [("get", { operationId := some "ping" })] "get"
      { operationId := some "ping" } rfl rfl).2.1 500 "boom" rfl)⟩

/-- A lookup is unchanged by a filter whose predicate accepts every entry
bearing the looked-up key. -/
theorem lookup_filter_of_key {β : Type} (entries : List (String × β))
    (q : String × β → Bool) (k : String) (hq : ∀ v, q (k, v) = true) :
    (entries.filter q).lookup k = entries.lookup k := by
  induction entries with
  | nil => rfl
  | cons kv rest ih =>
    by_cases hk : kv.1 = k
    · have hqkv : q kv = true := by
        have := hq kv.2
        rwa [← hk] at this
      simp only [List.filter_cons, hqkv, if_true]
      have hbeq : (k == kv.1) = true := by simp [hk]
      cases kv with
      | mk k1 v1 => simp_all [List.lookup]
    · have hbeq : (k == kv.1) = false := by simp [Ne.symm hk]
      cases hqkv : q kv with
      | true =>
        cases kv with
        | mk k1 v1 =>
          simp only [List.filter_cons, hqkv, if_true]
          simp only [List.lookup, hbeq] at *
          exact ih
      | false =>
        cases kv with
        | mk k1 v1 =>
          simp only [List.filter_cons, hqkv, if_false, Bool.false_eq_true]
          simp only [List.lookup, hbeq] at *
          exact ih

/-- Folding with pointwise-equal step functions gives equal results. -/
theorem foldl_congr_of_mem {α β : Type} (l : List α) (f g : β → α → β)
    (h : ∀ a ∈ l, ∀ b, f b a = g b a) : ∀ b, l.foldl f b = l.foldl g b := by
  induction l with
  | nil => intro b; rfl
  | cons a t ih =>
    intro b
    simp only [List.foldl_cons]
    rw [h a (List.mem_cons_self a t) b]
    exact ih (fun x hx b2 => h x (List.mem_cons_of_mem a hx) b2) (g b a)

/-- The path/query partition sees only the declared argument keys. -/
theorem paramsPartition_filter_declared (operation : Operation)
    (params : List (String × String)) :
    paramsPartition operation
        (params.filter (fun kv => operation.parameters.any (fun p => p.name == kv.1)))
      = paramsPartition operation params := by
  unfold paramsPartition
  apply foldl_congr_of_mem
  intro p hp pq
  unfold partitionStep
  rw [lookup_filter_of_key]
  intro v
  simp only [List.any_eq_true]
  exact ⟨p, hp, by simp⟩

/-- C9: the URL `executeToolServer` constructs substitutes each declared path
parameter into the template by literal `{name}` replacement with the
percent-encoded value and appends the declared query parameters as a
URL-encoded query string; argument keys not declared by the operation are
dropped — the URL depends only on the declared entries of `args` — and on the
spec's example (`/items/{id}`, path `id`, query `verbose`,
`{id: "42", verbose: "true"}`) it is `{base}/items/42?verbose=true`. -/
theorem executeToolServer_url_construction :
    (∀ (url routePath : String) (operation : Operation) (params : List (String × String)),
      buildToolUrl url routePath operation
          (params.filter (fun kv => operation.parameters.any (fun p => p.name == kv.1)))
        = buildToolUrl url routePath operation params) ∧
    buildToolUrl "http://base" "/items/\x7bid\x7d"
        { operationId := some "getItem",
          parameters := [ParamSpec.mk "id" "path", ParamSpec.mk "verbose" "query"] }
        [("id", "42"), ("verbose", "true")]
      = "http://base/items/42?verbose=true" := by
  constructor
  · intro url routePath operation params
    unfold buildToolUrl
    rw [paramsPartition_filter_declared]
  · rfl

/-- A list of length at most one is recovered from its optional last element.
-/
theorem toList_getLast?_of_len_le_one {α : Type} (l : List α) (h : l.length ≤ 1) :
    l.getLast?.toList = l := by
  match l with
  | [] => rfl
  | [a] => rfl
  | a :: b :: t => simp at h

/-- Replacing every model bearing the inserted id keeps exactly those
positions in the id's filter, each now holding the inserted model. -/
theorem filter_map_replace_eq (M : List Model) (m : Model) :
    (M.map (fun x => if x.id == m.id then m else x)).filter (fun x => x.id == m.id)
      = (M.filter (fun x => x.id == m.id)).map (fun _ => m) := by
  induction M with
  | nil => rfl
  | cons y t ih =>
    by_cases hy : y.id = m.id
    · have hb : (y.id == m.id) = true := by simp [hy]
      simp only [List.map_cons, hb, if_true, List.filter_cons, beq_self_eq_true, ih]
    · have hb : (y.id == m.id) = false := by simp [hy]
      simp only [List.map_cons, hb, if_false, List.filter_cons, Bool.false_eq_true, ih]

/-- Replacing the models bearing a DIFFERENT id leaves an id's filter
unchanged. -/
theorem filter_map_replace_ne (M : List Model) (m : Model) (id : String)
    (hne : ¬ m.id = id) :
    (M.map (fun x => if x.id == m.id then m else x)).filter (fun x => x.id == id)
      = M.filter (fun x => x.id == id) := by
  induction M with
  | nil => rfl
  | cons y t ih =>
    by_cases hy : y.id = m.id
    · have hb : (y.id == m.id) = true := by simp [hy]
      have hm : (m.id == id) = false := by simp [hne]
      have hyid : (y.id == id) = false := by simp [hy, hne]
      simp only [List.map_cons, hb, if_true, List.filter_cons, hm, hyid, Bool.false_eq_true,
        if_false, ih]
    · have hb : (y.id == m.id) = false := by simp [hy]
      simp only [List.map_cons, hb, if_false, List.filter_cons, Bool.false_eq_true, ih]

/-- For every id, the deduplicated catalog holds exactly the LAST entry of the
input bearing that id (and nothing when the id never occurs). -/
theorem mergeById_filter (ms : List Model) :
    ∀ id : String,
      (mergeById ms).filter (fun x => x.id == id)
        = ((ms.filter (fun x => x.id == id)).getLast?).toList := by
  induction ms using List.reverseRecOn with
  | nil => intro id; rfl
  | append_singleton ms m ih =>
    intro id
    have hstep : mergeById (ms ++ [m]) = insertModel (mergeById ms) m := by
      simp [mergeById, List.foldl_append]
    rw [hstep]
    have hlen : ((mergeById ms).filter (fun x => x.id == id)).length ≤ 1 := by
      rw [ih id]
      cases (List.filter (fun x => x.id == id) ms).getLast? <;> simp
    by_cases hm : m.id = id
    · subst hm
      have hmfilter : List.filter (fun x => x.id == m.id) [m] = [m] := by simp
      have hrhs : ((ms ++ [m]).filter (fun x => x.id == m.id)).getLast? = some m := by
        rw [List.filter_append, hmfilter]
        exact List.getLast?_append_cons (List.filter (fun x => x.id == m.id) ms) m []
      rw [hrhs]
      by_cases hany : (mergeById ms).any (fun x => x.id == m.id) = true
      · rw [insertModel, if_pos hany, filter_map_replace_eq]
        have hne : (mergeById ms).filter (fun x => x.id == m.id) ≠ [] := by
          rcases List.any_eq_true.mp hany with ⟨x, hx, hpx⟩
          intro hnil
          exact absurd hpx (by
            have := List.filter_eq_nil_iff.mp hnil x hx
            simpa using this)
        have hone : ∃ x0, (mergeById ms).filter (fun x => x.id == m.id) = [x0] := by
          rcases hfx : (mergeById ms).filter (fun x => x.id == m.id) with _ | ⟨x0, tl⟩
          · exact absurd hfx hne
          · rcases tl with _ | ⟨y, tl2⟩
            · exact ⟨x0, hfx⟩
            · rw [hfx] at hlen
              simp at hlen
        obtain ⟨x0, hx0⟩ := hone
        rw [hx0]
        rfl
      · rw [insertModel, if_neg hany]
        have hfe : (mergeById ms).filter (fun x => x.id == m.id) = [] :=
          List.filter_eq_nil_iff.mpr (fun x hx => by
            intro hpx
            exact hany (List.any_eq_true.mpr ⟨x, hx, by simpa using hpx⟩))
        rw [List.filter_append, hfe, hmfilter]
        rfl
    · have hmf : List.filter (fun x => x.id == id) [m] = [] := by simp [hm]
      have hrhs : ((ms ++ [m]).filter (fun x => x.id == id))
          = ms.filter (fun x => x.id == id) := by
        rw [List.filter_append, hmf, List.append_nil]
      rw [hrhs, ← ih id]
      by_cases hany : (mergeById ms).any (fun x => x.id == m.id) = true
      · rw [insertModel, if_pos hany, filter_map_replace_ne _ _ _ hm]
      · rw [insertModel, if_neg hany, List.filter_append, hmf, List.append_nil]

/-- C3: in the merged catalog every id occurs exactly once, bearing the
LAST pre-merge entry with that id; the pre-merge order is base catalog first,
then the connections' processed (prefixed, tagged, `direct`-marked) models, so
a connection model whose id collides with a base model replaces the base
entry — as the closed instance shows: a base model `m` is replaced in place
by the connection's version of `m` with its tags applied and `direct` set. -/
theorem getModels_merge_last_wins :
    (∀ (baseModels : List Model) (urls : List String) (configs : List (Nat × ApiConfig))
      (oracle : Nat → ConnFetch) (id : String),
      (getModelsMerged baseModels urls configs oracle).filter (fun m => m.id == id)
        = (((preMergeModels baseModels urls configs oracle).filter
            (fun m => m.id == id)).getLast?).toList) ∧
    getModelsMerged [{ id := "m", owned_by := some "base" }] ["http://u"]
        [(0, { tags := some ["t"] })] (fun _ => ConnFetch.ok [{ id := "m" }])
      = [{ id := "m", name := some "m", owned_by := none, tags := some ["t"],
           urlIdx := some 0, direct := true }] := by
  constructor
  · intro baseModels urls configs oracle id
    exact mergeById_filter (preMergeModels baseModels urls configs oracle) id
  · rfl

/-- C6: a connection whose model-listing fetch fails contributes exactly what
an empty listing would — the whole catalog is the same as if that connection
had returned zero models, so the base catalog and every other connection are
unaffected — and concretely, with connection 0 failing, the base model and
connection 1's model both appear in the final result. -/
theorem getModels_connection_failure_isolated :
    (∀ (baseModels : List Model) (urls : List String) (configs : List (Nat × ApiConfig))
      (oracle : Nat → ConnFetch) (i : Nat),
      getModelsMerged baseModels urls configs
          (fun j => if j = i then ConnFetch.failed else oracle j)
        = getModelsMerged baseModels urls configs
          (fun j => if j = i then ConnFetch.ok [] else oracle j)) ∧
    ({ id := "base-model" } : Model)
        ∈ getModelsMerged [{ id := "base-model" }] ["http://u0", "http://u1"]
            [(0, {}), (1, {})]
            (fun j => if j = 0 then ConnFetch.failed
              else ConnFetch.ok [{ id := "remote" }]) ∧
    ({ id := "remote", name := some "remote", urlIdx := some 1, direct := true } : Model)
        ∈ getModelsMerged [{ id := "base-model" }] ["http://u0", "http://u1"]
            [(0, {}), (1, {})]
            (fun j => if j = 0 then ConnFetch.failed
              else ConnFetch.ok [{ id := "remote" }]) := by
  refine ⟨?_, by decide, by decide⟩
  intro baseModels urls configs oracle i
  have hreq : connRequest configs (fun j => if j = i then ConnFetch.failed else oracle j)
      = connRequest configs (fun j => if j = i then ConnFetch.ok [] else oracle j) := by
    funext j
    unfold connRequest
    cases configs.lookup j with
    | none => rfl
    | some apiConfig =>
      by_cases hj : j = i <;> simp [hj]
  unfold getModelsMerged preMergeModels connRequests
  rw [hreq]

/-- A `filterMap` keeps as many elements as the filter of defined results. -/
theorem length_filterMap_eq_length_filter {α β : Type} (l : List α) (f : α → Option β) :
    (l.filterMap f).length = (l.filter (fun a => (f a).isSome)).length := by
  induction l with
  | nil => rfl
  | cons a t ih =>
    cases hfa : f a with
    | none => simp [List.filterMap_cons, List.filter_cons, hfa, ih]
    | some b => simp [List.filterMap_cons, List.filter_cons, hfa, ih]

/-- A `filterMap` that never drops is a `map`. -/
theorem filterMap_eq_map_of_isSome {α β : Type} (l : List α) (f : α → Option β) (d : β)
    (h : ∀ a ∈ l, (f a).isSome) : l.filterMap f = l.map (fun a => (f a).getD d) := by
  induction l with
  | nil => rfl
  | cons a t ih =>
    have ha := h a (List.mem_cons_self a t)
    cases hfa : f a with
    | none => rw [hfa] at ha; simp at ha
    | some b =>
      simp only [List.filterMap_cons, hfa, List.map_cons, Option.getD_some]
      exact congrArg (b :: ·) (ih (fun x hx => h x (List.mem_cons_of_mem a hx)))

/-- Post-processing a list of responses laid out as `range' k n` positions. -/
theorem applyAllConfigs_map_range' (configs : List (Nat × ApiConfig)) (g : Nat → List Model) :
    ∀ (n k : Nat),
      applyAllConfigs configs k ((List.range' k n).map g)
        = ((List.range' k n).map
            (fun i => applyConfig ((configs.lookup i).getD {}) i (g i))).flatten := by
  intro n
  induction n with
  | zero => intro k; rfl
  | succ n ih =>
    intro k
    show applyAllConfigs configs k ((k :: List.range' (k + 1) n).map g) = _
    simp only [List.map_cons, applyAllConfigs, List.flatten_cons]
    exact congrArg _ (ih (k + 1))

/-- C10 counterexample: the claim's final clause says positional resolution
coincides with the original connection index ONLY when every connection index
has a config entry. Here connection index 1 has no entry, yet the only
response (connection 0's) sits at position 0 and is processed with connection
0's own config and `urlIdx` — the coincidence holds for every response even
though an index is missing, because the missing index is last. -/
theorem getModels_positional_coincidence_without_full_configs :
    ([(0, ({ prefix_id := some "p" } : ApiConfig))].lookup 1 = none) ∧
    applyAllConfigs [(0, { prefix_id := some "p" })] 0
        (connRequests ["http://u0", "http://u1"] [(0, { prefix_id := some "p" })]
          (fun _ => ConnFetch.ok [{ id := "m" }]))
      = [{ id := "p.m", urlIdx := some 0 }] := ⟨rfl, rfl⟩

/-- C10 (amended): a connection index that is not a key of
`OPENAI_API_CONFIGS` contributes no request at all — the settled responses
count exactly the config-bearing indices — and the post-processing loop
resolves each response's config and `urlIdx` by its position in that filtered
array; when every connection index has a config entry, position and original
index coincide, so each connection is processed with its own config. When an
EARLIER index lacks an entry the later responses shift down, as the closed
conjunct shows: with a config only at index 1, connection 1's response is
processed at position 0 with the empty default config (its `prefix_id` is
lost) and `urlIdx := 0`. -/
theorem getModels_config_positional_resolution :
    (∀ (urls : List String) (configs : List (Nat × ApiConfig)) (oracle : Nat → ConnFetch),
      ((connRequests urls configs oracle).length
          = ((List.range urls.length).filter (fun i => (configs.lookup i).isSome)).length) ∧
      ((∀ i, i < urls.length → (configs.lookup i).isSome) →
        applyAllConfigs configs 0 (connRequests urls configs oracle)
          = ((List.range urls.length).map
              (fun i => applyConfig ((configs.lookup i).getD {}) i
                ((connRequest configs oracle i).getD []))).flatten)) ∧
    applyAllConfigs [(1, ({ prefix_id := some "q" } : ApiConfig))] 0
        (connRequests ["http://u0", "http://u1"] [(1, { prefix_id := some "q" })]
          (fun _ => ConnFetch.ok [{ id := "m1" }]))
      = [{ id := "m1", urlIdx := some 0 }] := by
  refine ⟨?_, rfl⟩
  intro urls configs oracle
  have hfilter : ∀ i, (configs.lookup i).isSome → (connRequest configs oracle i).isSome := by
    intro i hc
    obtain ⟨apiConfig, hc⟩ := Option.isSome_iff_exists.mp hc
    unfold connRequest
    rw [hc]
    dsimp only
    split
    · split
      · rfl
      · cases oracle i <;> rfl
    · rfl
  constructor
  · have h1 := length_filterMap_eq_length_filter (List.range urls.length)
      (connRequest configs oracle)
    have h2 : (List.range urls.length).filter
          (fun a => (connRequest configs oracle a).isSome)
        = (List.range urls.length).filter (fun i => (configs.lookup i).isSome) := by
      apply List.filter_congr
      intro i _
      unfold connRequest
      cases configs.lookup i with
      | none => rfl
      | some apiConfig =>
        dsimp only
        split
        · split
          · rfl
          · cases oracle i <;> rfl
        · rfl
    unfold connRequests
    rw [h1, h2]
  · intro hcov
    have hsome : ∀ i ∈ List.range urls.length, (connRequest configs oracle i).isSome := by
      intro i hi
      exact hfilter i (hcov i (List.mem_range.mp hi))
    unfold connRequests
    rw [filterMap_eq_map_of_isSome _ _ [] hsome, List.range_eq_range',
      applyAllConfigs_map_range']

/-- Witness for the C10 amended theorem on two connections that both have
config entries: the coverage hypothesis holds and positional processing lines
up with the original connection indices. -/
theorem getModels_config_positional_resolution_witness :
    (∀ i, i < (["http://u0", "http://u1"] : List String).length →
      (([(0, ({} : ApiConfig)), (1, ({} : ApiConfig))].lookup i).isSome = true)) ∧
    applyAllConfigs [(0, ({} : ApiConfig)), (1, ({} : ApiConfig))] 0
        (connRequests ["http://u0", "http://u1"]
          [(0, ({} : ApiConfig)), (1, ({} : ApiConfig))] (fun _ => ConnFetch.ok []))
      = ((List.range (["http://u0", "http://u1"] : List String).length).map
          (fun i => applyConfig
            (([(0, ({} : ApiConfig)), (1, ({} : ApiConfig))].lookup i).getD {}) i
            ((connRequest [(0, ({} : ApiConfig)), (1, ({} : ApiConfig))]
              (fun _ => ConnFetch.ok []) i).getD []))).flatten :=
  ⟨by decide,
   (getModels_config_positional_resolution.1 ["http://u0", "http://u1"]
      [(0, ({} : ApiConfig)), (1, ({} : ApiConfig))] (fun _ => ConnFetch.ok [])).2
     (by decide)⟩
